import Mathlib

/-!
# Verification of the spx-backend AI-asset controller core

Shallow embedding of `spx-backend/internal/controller` (the `aiasset`
controller file and `user_asset.go`): the outbound URL safety validator
(`MattingParams.Validate` together with `isIPPrivate`), the asynchronous
job dispatcher (`Controller.Generating`), the status resolver
(`Controller.GetAIAssetStatus`), and `Controller.AddUserAsset`.

The persistence layer (`internal/model`: `AddAsset`, `UpdateAssetByID`,
`CheckAssetFilesHashByID`, `AddUserAsset`) is not part of the sources;
its behaviour is modelled from the spec's Job Store interface (§6).
Environmental effects — DNS resolution, URL parsing, the remote AIGC
client, and store failures — are passed in as explicit parameters or
outcome values, so every definition stays executable.
-/

/-! ## The net.IP model

Go's `net.IP` is a byte slice, length 4 for IPv4 or 16 for IPv6.  We model
it as a list of byte values and translate the classification methods used
by `isIPPrivate` from the Go standard library. -/

namespace NetIP

/-- A Go `net.IP`: a list of bytes, length 4 (IPv4) or 16 (IPv6). -/
def IP := List Nat

/-- Go's `IP.To4` from the net package: the 4-byte form of an IPv4 address,
either given directly or as an IPv4-mapped IPv6 address; `none` for any
other address. -/
def to4 : List Nat → Option (Nat × Nat × Nat × Nat)
  | [a, b, c, d] => some (a, b, c, d)
  | [0, 0, 0, 0, 0, 0, 0, 0, 0, 0, 0xff, 0xff, a, b, c, d] => some (a, b, c, d)
  | _ => none

/-- Go's `IP.IsLoopback`: 127.0.0.0/8 for IPv4, `::1` for IPv6. -/
def isLoopback (ip : List Nat) : Bool :=
  match to4 ip with
  | some (a, _, _, _) => a == 127
  | none => ip == [0, 0, 0, 0, 0, 0, 0, 0, 0, 0, 0, 0, 0, 0, 0, 1]

/-- Go's `IP.IsLinkLocalUnicast`: 169.254.0.0/16 for IPv4, fe80::/10 for IPv6. -/
def isLinkLocalUnicast (ip : List Nat) : Bool :=
  match to4 ip with
  | some (a, b, _, _) => a == 169 && b == 254
  | none =>
    match ip with
    | a :: b :: rest => rest.length == 14 && a == 0xfe && (b &&& 0xc0) == 0x80
    | _ => false

/-- Go's `IP.IsLinkLocalMulticast`: 224.0.0.0/24 for IPv4, ff02::/16 for IPv6. -/
def isLinkLocalMulticast (ip : List Nat) : Bool :=
  match to4 ip with
  | some (a, b, c, _) => a == 224 && b == 0 && c == 0
  | none =>
    match ip with
    | a :: b :: rest => rest.length == 14 && a == 0xff && (b &&& 0x0f) == 0x02
    | _ => false

/-- Go's `IP.IsPrivate`: 10.0.0.0/8, 172.16.0.0/12, 192.168.0.0/16 for IPv4,
fc00::/7 for IPv6. -/
def isPrivate (ip : List Nat) : Bool :=
  match to4 ip with
  | some (a, b, _, _) =>
    a == 10 || (a == 172 && (b &&& 0xf0) == 16) || (a == 192 && b == 168)
  | none =>
    match ip with
    | a :: rest => rest.length == 15 && (a &&& 0xfe) == 0xfc
    | _ => false

end NetIP

/-- The controller's `isIPPrivate`: true when the address is loopback,
link-local unicast, link-local multicast, or in a private range. -/
def isIPPrivate (ip : List Nat) : Bool :=
  NetIP.isLoopback ip || NetIP.isLinkLocalUnicast ip ||
    NetIP.isLinkLocalMulticast ip || NetIP.isPrivate ip

/-! ## The URL safety validator -/

/-- The fields of a parsed `net/url.URL` that `Validate` reads: `Scheme`,
`Host` (possibly with port), and the result of `Hostname()` (host with any
port and brackets stripped). -/
structure ParsedURL where
  scheme : String
  host : String
  hostname : String
  deriving DecidableEq, Repr

/-- The validator `MattingParams.Validate`, parameterized over its two environmental
effects: `parse` stands for `url.Parse` (`none` = parse error) and
`lookupIP` for `net.LookupIP` (`none` = resolution failure).  Mirrors the
Go source line by line: empty input, parse failure or empty host,
non-http(s) scheme, DNS failure, then rejection if any resolved address is
private. -/
def Validate (parse : String → Option ParsedURL)
    (lookupIP : String → Option (List (List Nat)))
    (imageUrl : String) : Bool × String :=
  if imageUrl = "" then
    (false, "missing imageUrl")
  else
    match parse imageUrl with
    | none => (false, "invalid imageUrl")
    | some u =>
      if u.host = "" then
        (false, "invalid imageUrl")
      else if u.scheme ≠ "http" ∧ u.scheme ≠ "https" then
        (false, "invalid imageUrl: unsupported scheme")
      else
        match lookupIP u.hostname with
        | none => (false, "invalid imageUrl: lookup IP failed")
        | some ips =>
          if ips.any isIPPrivate then
            (false, "invalid imageUrl: private IP")
          else
            (true, "")

/-! ## AddUserAsset (user_asset.go) -/

/-- Whether a string is a syntactically valid decimal integer for Go's
`strconv.Atoi`: an optional `+`/`-` sign followed by one or more ASCII
digits. -/
def isValidDecimalInt (s : String) : Bool :=
  let ds := match s.data with
    | '+' :: rest => rest
    | '-' :: rest => rest
    | l => l
  !ds.isEmpty && ds.all (fun c => '0' ≤ c && c ≤ '9')

/-- Numeric value of a digit list, most significant first. -/
def digitsVal (l : List Char) : Nat :=
  l.foldl (fun acc c => acc * 10 + (c.toNat - 48)) 0

/-- Go's `strconv.Atoi` (64-bit `int`): returns the parsed value and whether
parsing succeeded.  A syntax error yields `(0, false)`; an out-of-range
numeral yields the clamped bound and `false`, matching
`strconv.ParseInt(s, 10, 0)`. -/
def atoi (s : String) : Int × Bool :=
  if isValidDecimalInt s then
    let (neg, ds) := match s.data with
      | '+' :: rest => (false, rest)
      | '-' :: rest => (true, rest)
      | l => (false, l)
    let n := digitsVal ds
    if neg then
      if n > 2 ^ 63 then (-(2 ^ 63 : Int), false) else (-(n : Int), true)
    else
      if n > 2 ^ 63 - 1 then ((2 ^ 63 - 1 : Int), false) else ((n : Int), true)
  else
    (0, false)

/-- The `model.UserAsset` fields set by `AddUserAsset` (the relation
timestamp is environmental and omitted). -/
structure UserAsset where
  owner : String
  assetID : Int
  relationType : String
  deriving DecidableEq, Repr

/-- A store error, as seen by the controller (opaque message). -/
structure StoreErr where
  msg : String
  deriving DecidableEq, Repr

/-- The controller method `AddUserAsset`, parameterized over the `model.AddUserAsset`
store call.  Faithful to the Go source: the `strconv.Atoi` error is bound
and then immediately overwritten by the error of the store call, so only
the store call's outcome decides the returned error, and the parsed value
(zero on parse failure) is what reaches the record. -/
def AddUserAsset (addStore : UserAsset → Except StoreErr Unit)
    (assetIDParam : String) (assetType : String) (owner : String) :
    Except StoreErr Unit :=
  let assetId := (atoi assetIDParam).1
  match addStore { owner := owner, assetID := assetId, relationType := assetType } with
  | .error e => .error e
  | .ok _ => .ok ()

/-! ## The asynchronous job core (Generating / GetAIAssetStatus)

The `internal/model` store functions (`AddAsset`, `UpdateAssetByID`,
`CheckAssetFilesHashByID`) are not in the sources; their behaviour is
modelled from the spec's Job Store interface: `CreateJob` assigns a fresh
id to a new record, `UpdateJobResult` sets the record's result marker,
`GetJob` fails with NotFound exactly when the id is absent.  Job ids are
modelled as naturals handed out by a counter.  Store and remote-call
failures are explicit outcome parameters. -/

/-- Modelled from the spec: `model.AssetType`, the classification
enumeration {Sprite, Backdrop, …}; only the two values used by this
controller are modelled. -/
inductive AssetType
  | sprite
  | backdrop
  deriving DecidableEq, Repr

/-- Modelled from the spec: the Job Record held by the Job Store —
`model.Asset` restricted to the fields this core reads and writes:
the classification (`AssetType`) and the result marker (`FilesHash`,
empty until the background task completes successfully). -/
structure AssetRecord where
  assetType : AssetType
  filesHash : String
  deriving DecidableEq, Repr

/-- An error as seen through the controller: NotFound or some other
store/transport error. -/
inductive Err
  | notFound
  | other (msg : String)
  deriving DecidableEq, Repr

/-- Modelled from the spec: `GetJob` — look up a Job Record by id
(first match in the store's association list). -/
def lookupJob (jobs : List (Nat × AssetRecord)) (id : Nat) : Option AssetRecord :=
  match jobs with
  | [] => none
  | q :: rest => if q.1 = id then some q.2 else lookupJob rest id

/-- Modelled from the spec: `UpdateJobResult` / `model.UpdateAssetByID` —
set the result marker of the record with the given id. -/
def updateJobResult (jobs : List (Nat × AssetRecord)) (id : Nat)
    (payload : String) : List (Nat × AssetRecord) :=
  match jobs with
  | [] => []
  | q :: rest =>
    (if q.1 = id then (q.1, { q.2 with filesHash := payload }) else q) ::
      updateJobResult rest id payload

/-- The request shape `GenerateParams` from the controller (`width`/`height` are Go `int`s). -/
structure GenerateParams where
  category : List String
  keyword : String
  width : Int
  height : Int
  deriving DecidableEq, Repr

/-- The response shape `GenerateResult`: the returned job handle (`ImageJobId`). -/
structure GenerateResult where
  imageJobId : Nat
  deriving DecidableEq, Repr

/-- The status enumeration `AssetStatus` from the controller: `waiting`, `generating`, `finish`. -/
inductive AssetStatus
  | waiting
  | generating
  | finish
  deriving DecidableEq, Repr

/-- The result-files shape `AIStatusFiles` from the controller. -/
structure AIStatusFiles where
  imageUrl : String
  skeletonUrl : String
  deriving DecidableEq, Repr

/-- The result shape `AIStatusResult` from the controller. -/
structure AIStatusResult where
  jobId : Nat
  type : AssetType
  files : AIStatusFiles
  deriving DecidableEq, Repr

/-- The response shape `GetAIAssetStatusResult` from the controller. -/
structure GetAIAssetStatusResult where
  status : AssetStatus
  result : AIStatusResult
  deriving DecidableEq, Repr

/-- The classification step inlined at the top of `Controller.Generating`:
Backdrop when both dimensions are positive, Sprite otherwise. -/
def classifyGenerate (p : GenerateParams) : AssetType :=
  if p.height > 0 ∧ p.width > 0 then .backdrop else .sprite

/-- The background task spawned by `Generating`, before it has run:
the job it will write to and the request data it will send. -/
structure PendingTask where
  jobId : Nat
  category : List String
  keyword : String
  deriving DecidableEq, Repr

/-- The whole system state: the Job Store contents, the store's fresh-id
counter, the spawned-but-unfinished background tasks, and a log of the
successful result-marker writes `(jobId, payload)` performed so far. -/
structure SysState where
  jobs : List (Nat × AssetRecord)
  nextId : Nat
  pending : List PendingTask
  writes : List (Nat × String)
  deriving DecidableEq, Repr

/-- The state before any dispatch. -/
def initState : SysState := ⟨[], 0, [], []⟩

/-- The dispatcher `Controller.Generating`, up to the point where it returns: classify,
synchronously create the Job Record (`createOutcome` is the store's
answer: `some e` = `AddAsset` failed with `e`), and on success spawn the
background task and return the fresh record's id.  On create failure the
error is returned at once and nothing is spawned. -/
def Generating (st : SysState) (createOutcome : Option Err)
    (p : GenerateParams) : SysState × Except Err GenerateResult :=
  let assetType := classifyGenerate p
  match createOutcome with
  | some e => (st, .error e)
  | none =>
    let id := st.nextId
    ({ jobs := (id, ⟨assetType, ""⟩) :: st.jobs,
       nextId := id + 1,
       pending := ⟨id, p.category, p.keyword⟩ :: st.pending,
       writes := st.writes }, .ok ⟨id⟩)

/-- Outcome of the background task's AIGC `Call`: a produced image URL, or
a transport failure (in which case `generateResult` keeps its zero value,
the empty string). -/
inductive CallOutcome
  | success (imageUrl : String)
  | failure
  deriving DecidableEq, Repr

/-- The payload the goroutine passes to `UpdateAssetByID`: the decoded
`image_url` on success, the zero value `""` on call failure (the goroutine
only logs the call error and falls through to the update). -/
def callPayload : CallOutcome → String
  | .success u => u
  | .failure => ""

/-- Run one spawned background task of `Generating` to completion: perform
the remote call (outcome `call`), then unconditionally invoke the store
update with the decoded payload; `updateOk` says whether the store accepts
the update (on store failure the goroutine only logs).  A successful
update is recorded in the write log. -/
def runTask (st : SysState) (t : PendingTask) (call : CallOutcome)
    (updateOk : Bool) : SysState :=
  let payload := callPayload call
  if updateOk then
    { st with
      pending := st.pending.erase t,
      jobs := updateJobResult st.jobs t.jobId payload,
      writes := st.writes ++ [(t.jobId, payload)] }
  else
    { st with pending := st.pending.erase t }

/-- The resolver `Controller.GetAIAssetStatus`: read the record (NotFound when absent,
per the spec's `GetJob`), derive the status from the emptiness of the
result marker, and populate the details. -/
def GetAIAssetStatus (jobs : List (Nat × AssetRecord)) (id : Nat) :
    Except Err GetAIAssetStatusResult :=
  match lookupJob jobs id with
  | none => .error .notFound
  | some r =>
    let status : AssetStatus := if r.filesHash = "" then .generating else .finish
    .ok ⟨status, ⟨id, r.assetType, ⟨r.filesHash, ""⟩⟩⟩

/-- One step of the core: either some caller dispatches a generation
request (with some create outcome), or one spawned background task runs to
completion (with some call and update outcome). -/
inductive Step : SysState → SysState → Prop
  | dispatch (st : SysState) (oc : Option Err) (p : GenerateParams) :
      Step st (Generating st oc p).1
  | run (st : SysState) (t : PendingTask) (call : CallOutcome)
      (updateOk : Bool) (ht : t ∈ st.pending) :
      Step st (runTask st t call updateOk)

/-- A state reachable from the initial state. -/
def Reachable (st : SysState) : Prop :=
  Relation.ReflTransGen Step initState st

/-- The system invariant: every stored id is below the fresh-id counter,
every pending background task's job exists and still has an empty result
marker, and no two pending tasks target the same job. -/
abbrev SysInv (st : SysState) : Prop :=
  (∀ q ∈ st.jobs, q.1 < st.nextId) ∧
  (∀ t ∈ st.pending,
    (lookupJob st.jobs t.jobId).map AssetRecord.filesHash = some "") ∧
  (st.pending.map PendingTask.jobId).Nodup

/-! ## Concrete environments and traces for the spec's scenarios -/

/-- Test environment: `url.Parse`'s output on the cloud-metadata URL of
the spec's concrete scenario. -/
def metadataParse : String → Option ParsedURL := fun s =>
  if s = "http://169.254.169.254/latest/meta-data" then
    some ⟨"http", "169.254.169.254", "169.254.169.254"⟩
  else none

/-- Test environment: `net.LookupIP` on the metadata IP literal returns
the literal itself. -/
def metadataLookup : String → Option (List (List Nat)) := fun h =>
  if h = "169.254.169.254" then some [[169, 254, 169, 254]] else none

/-- Test environment: `url.Parse`'s output on an ftp URL. -/
def ftpParse : String → Option ParsedURL := fun s =>
  if s = "ftp://example.com/a.png" then
    some ⟨"ftp", "example.com", "example.com"⟩
  else none

/-- Test environment: DNS resolution that always fails. -/
def noLookup : String → Option (List (List Nat)) := fun _ => none

/-- Test environment: DNS resolution to a single public address. -/
def publicLookup : String → Option (List (List Nat)) := fun _ =>
  some [[8, 8, 8, 8]]

/-- The state after dispatching the spec's concrete scenario
`{category: ["animal"], keyword: "cat", width: 0, height: 0}` from the
initial state, with a successful record creation. -/
def stAfterDispatch : SysState :=
  (Generating initState none ⟨["animal"], "cat", 0, 0⟩).1

/-- The background task spawned by that dispatch. -/
def catTask : PendingTask := ⟨0, ["animal"], "cat"⟩

/-- That task run to completion with a failed remote call and a store
that accepts the (empty) update. -/
def stAfterFailRun : SysState := runTask stAfterDispatch catTask .failure true

/-- That task run to completion with a successful remote call and a
successful store update. -/
def stAfterSuccessRun : SysState :=
  runTask stAfterDispatch catTask (.success "https://cdn/x.png") true

/-! ## Helper lemmas about the store model -/

theorem lookupJob_cons (q : Nat × AssetRecord) (jobs : List (Nat × AssetRecord))
    (id : Nat) :
    lookupJob (q :: jobs) id = if q.1 = id then some q.2 else lookupJob jobs id :=
  rfl

theorem lookupJob_lt {jobs : List (Nat × AssetRecord)} {n : Nat}
    (hk : ∀ q ∈ jobs, q.1 < n) {id : Nat} {r : AssetRecord}
    (h : lookupJob jobs id = some r) : id < n := by
  induction jobs with
  | nil => simp [lookupJob] at h
  | cons q rest ih =>
    rw [lookupJob_cons] at h
    by_cases hq : q.1 = id
    · subst hq
      exact hk q (List.mem_cons_self q rest)
    · rw [if_neg hq] at h
      exact ih (fun p hp => hk p (List.mem_cons_of_mem q hp)) h

theorem lookupJob_update_ne {jobs : List (Nat × AssetRecord)} {k i : Nat}
    (h : i ≠ k) (payload : String) :
    lookupJob (updateJobResult jobs k payload) i = lookupJob jobs i := by
  induction jobs with
  | nil => rfl
  | cons q rest ih =>
    simp only [updateJobResult]
    by_cases hq : q.1 = k
    · rw [if_pos hq, lookupJob_cons, lookupJob_cons]
      have hne : ¬ q.1 = i := fun hh => h ((hh.symm.trans hq))
      rw [if_neg hne, if_neg hne, ih]
    · rw [if_neg hq, lookupJob_cons, lookupJob_cons]
      by_cases hqi : q.1 = i
      · rw [if_pos hqi, if_pos hqi]
      · rw [if_neg hqi, if_neg hqi, ih]

theorem lookupJob_update_eq {jobs : List (Nat × AssetRecord)} {k : Nat}
    {r : AssetRecord} (h : lookupJob jobs k = some r) (payload : String) :
    lookupJob (updateJobResult jobs k payload) k =
      some { r with filesHash := payload } := by
  induction jobs with
  | nil => simp [lookupJob] at h
  | cons q rest ih =>
    rw [lookupJob_cons] at h
    simp only [updateJobResult]
    by_cases hq : q.1 = k
    · rw [if_pos hq] at h
      rw [if_pos hq, lookupJob_cons, if_pos hq]
      cases h
      rfl
    · rw [if_neg hq] at h
      rw [if_neg hq, lookupJob_cons, if_neg hq]
      exact ih h

theorem updateJobResult_keys (jobs : List (Nat × AssetRecord)) (k : Nat)
    (payload : String) :
    (updateJobResult jobs k payload).map Prod.fst = jobs.map Prod.fst := by
  induction jobs with
  | nil => rfl
  | cons q rest ih =>
    simp only [updateJobResult, List.map_cons, ih]
    split_ifs <;> rfl

theorem Generating_some (st : SysState) (e : Err) (p : GenerateParams) :
    Generating st (some e) p = (st, Except.error e) := rfl

theorem Generating_none (st : SysState) (p : GenerateParams) :
    Generating st none p =
      ({ jobs := (st.nextId, ⟨classifyGenerate p, ""⟩) :: st.jobs,
         nextId := st.nextId + 1,
         pending := ⟨st.nextId, p.category, p.keyword⟩ :: st.pending,
         writes := st.writes }, Except.ok ⟨st.nextId⟩) := rfl

theorem runTask_true (st : SysState) (t : PendingTask) (call : CallOutcome) :
    runTask st t call true =
      { st with
        pending := st.pending.erase t,
        jobs := updateJobResult st.jobs t.jobId (callPayload call),
        writes := st.writes ++ [(t.jobId, callPayload call)] } := rfl

theorem runTask_false (st : SysState) (t : PendingTask) (call : CallOutcome) :
    runTask st t call false = { st with pending := st.pending.erase t } := rfl

theorem sysInv_init : SysInv initState := by decide

theorem sysInv_step {st st' : SysState} (hinv : SysInv st)
    (hstep : Step st st') : SysInv st' := by
  obtain ⟨hk, hp, hnd⟩ := hinv
  cases hstep with
  | dispatch oc p =>
    cases oc with
    | some e => exact ⟨hk, hp, hnd⟩
    | none =>
      rw [Generating_none]
      refine ⟨?_, ?_, ?_⟩
      · intro q hq
        rcases List.mem_cons.mp hq with h1 | h1
        · subst h1
          exact Nat.lt_succ_self _
        · exact Nat.lt_succ_of_lt (hk q h1)
      · intro t ht
        rcases List.mem_cons.mp ht with h1 | h1
        · subst h1
          rw [lookupJob_cons, if_pos rfl]
          rfl
        · have hl := hp t h1
          obtain ⟨r, hr, hrh⟩ := Option.map_eq_some'.mp hl
          have hlt : t.jobId < st.nextId := lookupJob_lt hk hr
          rw [lookupJob_cons,
            if_neg (fun (hh : st.nextId = t.jobId) =>
              absurd (hh ▸ hlt) (lt_irrefl _))]
          exact hl
      · rw [List.map_cons]
        refine List.nodup_cons.mpr ⟨?_, hnd⟩
        intro hmem
        obtain ⟨t, ht, hid⟩ := List.mem_map.mp hmem
        have hl := hp t ht
        obtain ⟨r, hr, _⟩ := Option.map_eq_some'.mp hl
        have hlt := lookupJob_lt hk hr
        rw [hid] at hlt
        exact lt_irrefl _ hlt
  | run t call updateOk ht =>
    cases updateOk with
    | false =>
      rw [runTask_false]
      refine ⟨hk, ?_, ?_⟩
      · intro t' ht'
        exact hp t' (List.mem_of_mem_erase ht')
      · exact hnd.sublist ((List.erase_sublist t st.pending).map _)
    | true =>
      rw [runTask_true]
      have hperm : List.Perm st.pending (t :: st.pending.erase t) :=
        List.perm_cons_erase ht
      have hnd2 : (t.jobId :: (st.pending.erase t).map PendingTask.jobId).Nodup := by
        have hmp := hperm.map PendingTask.jobId
        rw [List.map_cons] at hmp
        exact hmp.nodup_iff.mp hnd
      obtain ⟨hnotmem, hnderase⟩ := List.nodup_cons.mp hnd2
      refine ⟨?_, ?_, hnderase⟩
      · intro q hq
        have hq1 : q.1 ∈ (updateJobResult st.jobs t.jobId (callPayload call)).map Prod.fst :=
          List.mem_map_of_mem _ hq
        rw [updateJobResult_keys] at hq1
        obtain ⟨q₀, hq₀, hq0eq⟩ := List.mem_map.mp hq1
        exact hq0eq ▸ hk q₀ hq₀
      · intro t' ht'
        have ht'mem : t' ∈ st.pending := List.mem_of_mem_erase ht'
        have hne : t'.jobId ≠ t.jobId := fun hh =>
          hnotmem (hh ▸ List.mem_map_of_mem _ ht')
        rw [lookupJob_update_ne hne]
        exact hp t' ht'mem

theorem sysInv_rtc {st st' : SysState} (hinv : SysInv st)
    (h : Relation.ReflTransGen Step st st') : SysInv st' := by
  induction h with
  | refl => exact hinv
  | tail hab hbc ih => exact sysInv_step ih hbc

theorem reachable_inv {st : SysState} (h : Reachable st) : SysInv st :=
  sysInv_rtc sysInv_init h

theorem step_preserves_result {st st' : SysState} (hinv : SysInv st)
    (hstep : Step st st') {id : Nat} {r : AssetRecord}
    (hl : lookupJob st.jobs id = some r) (hne : r.filesHash ≠ "") :
    lookupJob st'.jobs id = some r := by
  obtain ⟨hk, hp, hnd⟩ := hinv
  cases hstep with
  | dispatch oc p =>
    cases oc with
    | some e => exact hl
    | none =>
      rw [Generating_none]
      have hlt := lookupJob_lt hk hl
      rw [lookupJob_cons,
        if_neg (fun (hh : st.nextId = id) => absurd (hh ▸ hlt) (lt_irrefl _))]
      exact hl
  | run t call updateOk ht =>
    cases updateOk with
    | false => exact hl
    | true =>
      rw [runTask_true]
      by_cases hid : id = t.jobId
      · exfalso
        have hmap := hp t ht
        rw [← hid, hl] at hmap
        exact hne (by simpa using hmap)
      · rw [lookupJob_update_ne hid]
        exact hl

theorem rtc_preserves_result {st st' : SysState} (hinv : SysInv st)
    (hsteps : Relation.ReflTransGen Step st st') {id : Nat} {r : AssetRecord}
    (hl : lookupJob st.jobs id = some r) (hne : r.filesHash ≠ "") :
    lookupJob st'.jobs id = some r := by
  induction hsteps with
  | refl => exact hl
  | tail hab hbc ih => exact step_preserves_result (sysInv_rtc hinv hab) hbc ih hne

/-! ## Claim theorems -/

/-- C1: for every URL whose hostname resolves via DNS to one or more
addresses of which at least one is loopback, link-local, or private,
`Validate` returns `(false, "invalid imageUrl: private IP")`, even if
another resolved address is public. -/
theorem validate_rejects_private_ip
    (parse : String → Option ParsedURL)
    (lookupIP : String → Option (List (List Nat)))
    (s : String) (u : ParsedURL) (ips : List (List Nat))
    (hs : s ≠ "") (hp : parse s = some u) (hh : u.host ≠ "")
    (hsch : u.scheme = "http" ∨ u.scheme = "https")
    (hl : lookupIP u.hostname = some ips)
    (hpriv : ∃ ip ∈ ips, isIPPrivate ip = true) :
    Validate parse lookupIP s = (false, "invalid imageUrl: private IP") := by
  have hcond : ¬(u.scheme ≠ "http" ∧ u.scheme ≠ "https") := by
    rcases hsch with h | h <;> simp [h]
  have hany : ips.any isIPPrivate = true := by
    obtain ⟨ip, hip, hipp⟩ := hpriv
    exact List.any_eq_true.mpr ⟨ip, hip, hipp⟩
  simp [Validate, hs, hp, hh, hcond, hl, hany]

/-- C1 witness: the spec's concrete scenario — the cloud-metadata URL
`http://169.254.169.254/latest/meta-data` (its host is an IP literal that
resolves to itself, a link-local address) is rejected as a private IP. -/
theorem validate_rejects_private_ip_witness :
    Validate metadataParse metadataLookup "http://169.254.169.254/latest/meta-data" =
      (false, "invalid imageUrl: private IP") :=
  validate_rejects_private_ip metadataParse metadataLookup
    "http://169.254.169.254/latest/meta-data"
    ⟨"http", "169.254.169.254", "169.254.169.254"⟩ [[169, 254, 169, 254]]
    (by decide) (by decide) (by decide) (Or.inl rfl) (by decide)
    ⟨[169, 254, 169, 254], by decide, by decide⟩

/-- C7: for every URL that parses with a non-empty host but a scheme other
than http/https, `Validate` rejects with reason
`"invalid imageUrl: unsupported scheme"`, and the result does not depend
on the DNS environment (no resolution is performed). -/
theorem validate_rejects_bad_scheme
    (parse : String → Option ParsedURL)
    (l₁ l₂ : String → Option (List (List Nat)))
    (s : String) (u : ParsedURL)
    (hs : s ≠ "") (hp : parse s = some u) (hh : u.host ≠ "")
    (h1 : u.scheme ≠ "http") (h2 : u.scheme ≠ "https") :
    Validate parse l₁ s = (false, "invalid imageUrl: unsupported scheme") ∧
    Validate parse l₁ s = Validate parse l₂ s := by
  have hmain : ∀ l : String → Option (List (List Nat)),
      Validate parse l s = (false, "invalid imageUrl: unsupported scheme") := by
    intro l
    simp [Validate, hs, hp, hh, h1, h2]
  exact ⟨hmain l₁, (hmain l₁).trans (hmain l₂).symm⟩

/-- C7 witness: an ftp URL with non-empty host is rejected for its scheme,
identically under a failing and under a succeeding DNS environment. -/
theorem validate_rejects_bad_scheme_witness :
    Validate ftpParse noLookup "ftp://example.com/a.png" =
      (false, "invalid imageUrl: unsupported scheme") ∧
    Validate ftpParse noLookup "ftp://example.com/a.png" =
      Validate ftpParse publicLookup "ftp://example.com/a.png" :=
  validate_rejects_bad_scheme ftpParse noLookup publicLookup
    "ftp://example.com/a.png" ⟨"ftp", "example.com", "example.com"⟩
    (by decide) (by decide) (by decide) (by decide) (by decide)

/-- C8 counterexample: on the empty input `Validate` returns the reason
`"missing imageUrl"` (the field is called `imageUrl`), not `"missing URL"`
as the claim states. -/
theorem validate_empty_counterexample :
    Validate (fun _ => none) (fun _ => none) "" = (false, "missing imageUrl") ∧
    Validate (fun _ => none) (fun _ => none) "" ≠ (false, "missing URL") := by
  exact ⟨rfl, by decide⟩

/-- C8 (amended): for the empty input string, `Validate` returns ok=false
with reason exactly `"missing imageUrl"`, under every environment. -/
theorem validate_empty_rejects (parse : String → Option ParsedURL)
    (lookupIP : String → Option (List (List Nat))) :
    Validate parse lookupIP "" = (false, "missing imageUrl") := rfl

/-- C10: for every AssetID string that is not a (syntactically) valid
decimal integer, `AddUserAsset` returns no parse error — the `Atoi` error
is overwritten by the store call's error — and the record handed to the
store carries the zero asset ID `0`; the overall outcome is exactly the
store call's outcome on that record. -/
theorem addUserAsset_discards_parse_error
    (s : String) (h : isValidDecimalInt s = false)
    (addStore : UserAsset → Except StoreErr Unit)
    (assetType owner : String) :
    (atoi s).1 = 0 ∧
    AddUserAsset addStore s assetType owner =
      (match addStore ⟨owner, 0, assetType⟩ with
       | .error e => .error e
       | .ok _ => .ok ()) := by
  have ha : atoi s = (0, false) := by
    simp [atoi, h]
  constructor
  · rw [ha]
  · simp only [AddUserAsset, ha]

/-- C10 witness: adding a user asset with the malformed id
`"not-a-number"` reaches the store with asset ID 0 and succeeds when the
store does. -/
theorem addUserAsset_discards_parse_error_witness :
    (atoi "not-a-number").1 = 0 ∧
    AddUserAsset (fun _ => Except.ok ()) "not-a-number" "sprite" "alice" =
      Except.ok () :=
  addUserAsset_discards_parse_error "not-a-number" (by decide)
    (fun _ => Except.ok ()) "sprite" "alice"

/-- C4: for every job record found in the store, `GetAIAssetStatus`
returns Generating when the result marker is empty and Finished when it is
non-empty, never Waiting, and populates the details with the job id, its
classification, and the result marker (skeleton URL always empty, as the
code never sets it). -/
theorem getAIAssetStatus_found {jobs : List (Nat × AssetRecord)} {id : Nat}
    {r : AssetRecord} (h : lookupJob jobs id = some r) :
    GetAIAssetStatus jobs id =
      Except.ok ⟨if r.filesHash = "" then .generating else .finish,
        ⟨id, r.assetType, ⟨r.filesHash, ""⟩⟩⟩ ∧
    ∀ res, GetAIAssetStatus jobs id = Except.ok res → res.status ≠ .waiting := by
  have h1 : GetAIAssetStatus jobs id =
      Except.ok ⟨if r.filesHash = "" then .generating else .finish,
        ⟨id, r.assetType, ⟨r.filesHash, ""⟩⟩⟩ := by
    unfold GetAIAssetStatus
    rw [h]
  refine ⟨h1, ?_⟩
  intro res hres
  rw [h1] at hres
  cases hres
  split_ifs <;> simp

/-- C4 witness: a stored backdrop record with a produced result resolves
to Finished with all details populated. -/
theorem getAIAssetStatus_found_witness :
    GetAIAssetStatus [(7, ⟨AssetType.backdrop, "u"⟩)] 7 =
      Except.ok ⟨.finish, ⟨7, .backdrop, ⟨"u", ""⟩⟩⟩ :=
  (getAIAssetStatus_found
    (show lookupJob [(7, ⟨AssetType.backdrop, "u"⟩)] 7 =
      some ⟨AssetType.backdrop, "u"⟩ by decide)).1

/-- C9: for every job id absent from the store, `GetAIAssetStatus` fails
with the NotFound error and no other error kind (the spec-modelled
`GetJob` fails with NotFound exactly when the record is absent, and the
controller propagates that error unchanged). -/
theorem getAIAssetStatus_notFound {jobs : List (Nat × AssetRecord)}
    {id : Nat} (h : lookupJob jobs id = none) :
    GetAIAssetStatus jobs id = Except.error Err.notFound := by
  unfold GetAIAssetStatus
  rw [h]

/-- C9 witness: resolving id 0 against the empty store yields NotFound. -/
theorem getAIAssetStatus_notFound_witness :
    GetAIAssetStatus [] 0 = Except.error Err.notFound :=
  getAIAssetStatus_notFound (show lookupJob [] 0 = none from rfl)

/-- C3: `Generating` creates the Job Record synchronously before
returning: if creation fails it returns that error immediately with the
state unchanged (no record, no background task); if creation succeeds the
returned handle is the id of a record that exists in the store at the
moment of return. -/
theorem generating_creates_record_before_return (st : SysState)
    (p : GenerateParams) :
    (∀ e : Err, Generating st (some e) p = (st, Except.error e)) ∧
    (Generating st none p).2 = Except.ok ⟨st.nextId⟩ ∧
    lookupJob (Generating st none p).1.jobs st.nextId =
      some ⟨classifyGenerate p, ""⟩ := by
  refine ⟨fun e => rfl, rfl, ?_⟩
  show lookupJob ((st.nextId, ⟨classifyGenerate p, ""⟩) :: st.jobs) st.nextId = _
  rw [lookupJob_cons, if_pos rfl]

/-- C5: `Generating` classifies as Backdrop exactly when both width and
height are positive and as Sprite otherwise; the concrete request
`{category: ["animal"], keyword: "cat", width: 0, height: 0}` resolves to
Sprite, returns a fresh job id, and resolving that id immediately
afterwards yields Generating. -/
theorem generating_classifies_and_resolves_generating (st : SysState)
    (hinv : SysInv st) :
    (∀ p : GenerateParams,
      classifyGenerate p = .backdrop ↔ (p.width > 0 ∧ p.height > 0)) ∧
    (∀ p : GenerateParams,
      classifyGenerate p = .sprite ↔ ¬(p.width > 0 ∧ p.height > 0)) ∧
    classifyGenerate ⟨["animal"], "cat", 0, 0⟩ = .sprite ∧
    (Generating st none ⟨["animal"], "cat", 0, 0⟩).2 = Except.ok ⟨st.nextId⟩ ∧
    lookupJob st.jobs st.nextId = none ∧
    GetAIAssetStatus (Generating st none ⟨["animal"], "cat", 0, 0⟩).1.jobs st.nextId =
      Except.ok ⟨.generating, ⟨st.nextId, .sprite, ⟨"", ""⟩⟩⟩ := by
  obtain ⟨hk, hp, hnd⟩ := hinv
  refine ⟨?_, ?_, rfl, rfl, ?_, ?_⟩
  · intro p
    unfold classifyGenerate
    split_ifs with h
    · exact ⟨fun _ => ⟨h.2, h.1⟩, fun _ => rfl⟩
    · constructor
      · intro hh
        cases hh
      · intro hw
        exact absurd ⟨hw.2, hw.1⟩ h
  · intro p
    unfold classifyGenerate
    split_ifs with h
    · constructor
      · intro hh
        cases hh
      · intro hw
        exact absurd ⟨h.2, h.1⟩ hw
    · exact ⟨fun _ hw => h ⟨hw.2, hw.1⟩, fun _ => rfl⟩
  · cases hcase : lookupJob st.jobs st.nextId with
    | none => rfl
    | some r => exact absurd (lookupJob_lt hk hcase) (lt_irrefl _)
  · show GetAIAssetStatus
      ((st.nextId, ⟨classifyGenerate ⟨["animal"], "cat", 0, 0⟩, ""⟩) :: st.jobs)
      st.nextId = _
    unfold GetAIAssetStatus
    rw [lookupJob_cons, if_pos rfl]
    rfl

/-- C5 witness: the concrete scenario run from the initial state. -/
theorem generating_classifies_and_resolves_generating_witness :
    GetAIAssetStatus stAfterDispatch.jobs 0 =
      Except.ok ⟨.generating, ⟨0, .sprite, ⟨"", ""⟩⟩⟩ :=
  (generating_classifies_and_resolves_generating initState
    (by decide)).2.2.2.2.2

/-- C2 counterexample: on the concrete trace where the background task's
remote call fails (and the store accepts updates), the task still performs
one result-marker write — of the empty payload — so the claim's "zero
writes on the failure path" is false: the write log has one entry, not
none. -/
theorem generating_failure_path_write_counterexample :
    stAfterFailRun.writes = [(0, "")] ∧ stAfterFailRun.writes ≠ [] := by
  exact ⟨rfl, by decide⟩

/-- C2 (amended): on the background task's failure path the Job Record
keeps an empty result marker permanently, but the marker is not left
unwritten: the goroutine falls through to the store update even when the
remote call fails, so when the store accepts it exactly one write — of
the empty payload — is appended; only when the store update itself fails
are there zero writes. -/
theorem runTask_failure_path {st : SysState} (hinv : SysInv st)
    {t : PendingTask} (ht : t ∈ st.pending) (updateOk : Bool) :
    (lookupJob (runTask st t .failure updateOk).jobs t.jobId).map
        AssetRecord.filesHash = some "" ∧
    (runTask st t .failure updateOk).writes =
      (if updateOk then st.writes ++ [(t.jobId, "")] else st.writes) := by
  obtain ⟨hk, hp, hnd⟩ := hinv
  have hl := hp t ht
  obtain ⟨r, hr, hrh⟩ := Option.map_eq_some'.mp hl
  cases updateOk with
  | false =>
    rw [runTask_false]
    exact ⟨hl, rfl⟩
  | true =>
    rw [runTask_true]
    constructor
    · rw [show callPayload .failure = "" from rfl, lookupJob_update_eq hr]
      rfl
    · rfl

/-- C2 witness: the amended statement on the concrete dispatched state. -/
theorem runTask_failure_path_witness :
    (lookupJob stAfterFailRun.jobs 0).map AssetRecord.filesHash = some "" ∧
    stAfterFailRun.writes = stAfterDispatch.writes ++ [(0, "")] :=
  @runTask_failure_path stAfterDispatch (by decide) catTask (by decide) true

/-- C6: once `GetAIAssetStatus` has returned Finished for a job id, no
sequence of further steps of this core makes it return Generating again:
the very same Finished result is returned in every later state (a
non-empty result marker is never overwritten, and records are never
deleted). -/
theorem getAIAssetStatus_finish_stable {st st' : SysState}
    (hinv : SysInv st) (hsteps : Relation.ReflTransGen Step st st')
    {id : Nat} {res : GetAIAssetStatusResult}
    (hres : GetAIAssetStatus st.jobs id = Except.ok res)
    (hfin : res.status = .finish) :
    GetAIAssetStatus st'.jobs id = Except.ok res := by
  unfold GetAIAssetStatus at hres
  cases hcase : lookupJob st.jobs id with
  | none =>
    rw [hcase] at hres
    cases hres
  | some r =>
    rw [hcase] at hres
    cases hres
    have hne : r.filesHash ≠ "" := by
      intro hempty
      rw [hempty] at hfin
      simp at hfin
    have hl' := rtc_preserves_result hinv hsteps hcase hne
    unfold GetAIAssetStatus
    rw [hl']

/-- C6 witness: the concrete finished trace (dispatch, then the task
completes with `image_url = "https://cdn/x.png"`), with zero further
steps. -/
theorem getAIAssetStatus_finish_stable_witness :
    GetAIAssetStatus stAfterSuccessRun.jobs 0 =
      Except.ok ⟨.finish, ⟨0, .sprite, ⟨"https://cdn/x.png", ""⟩⟩⟩ :=
  @getAIAssetStatus_finish_stable stAfterSuccessRun stAfterSuccessRun
    (by decide) Relation.ReflTransGen.refl 0
    ⟨.finish, ⟨0, .sprite, ⟨"https://cdn/x.png", ""⟩⟩⟩ rfl rfl
